import Mathlib

/-!
Shallow embedding of the gameplay core of the lane-based runner declared in
`src/Graphics Project/Game/Game.h`.  The repository ships only the class
declaration header: the member-function bodies (`Game.cpp`) are not under
`src/`, so every operation is modelled from the specification (each such
definition carries a doc comment starting with `Modelled from the spec:`),
while the enumerations, data-member shapes and numeric constants are taken
directly from the header.  Rendering, audio and raw input polling are
external collaborators and are outside the model, as are the derived render
caches (`mSceneBlocks`, `mCharacterGrid`).
-/

/-- Cell content kinds, from `enum GameItem` in `Game.h`. -/
inductive GameItem where
  | EMPTY
  | BLOCK
  | COIN
  | GEM_DOUBLE_SCORE
  | GEM_SPEED
  | GEM_EXTRA_SCORE
  | GEM_REVERSED_MODE
  deriving DecidableEq

/-- Game states, from `enum GameState` in `Game.h`. -/
inductive GameState where
  | RUNNING
  | PAUSED
  | LOST
  deriving DecidableEq

/-- From `Game.h`: `const int LANES_X_COUNT = 3`. -/
abbrev LANES_X_COUNT : Nat := 3

/-- From `Game.h`: `const int LANES_Y_COUNT = 4`. -/
abbrev LANES_Y_COUNT : Nat := 4

/-- From `Game.h`: `const int LANES_Z_COUNT = 20`. -/
abbrev LANES_Z_COUNT : Nat := 20

/-- From `Game.h`: `const double LANE_WIDTH = 1.5`. -/
def LANE_WIDTH : ℚ := 3 / 2

/-- From `Game.h`: `const double LANE_HEIGHT = 1.0`. -/
def LANE_HEIGHT : ℚ := 1

/-- From `Game.h`: `const double LANE_DEPTH = 1.5`. -/
def LANE_DEPTH : ℚ := 3 / 2

/-- From `Game.h`: `const double SCENE_WIDTH = LANES_X_COUNT * LANE_WIDTH`. -/
def SCENE_WIDTH : ℚ := (LANES_X_COUNT : ℚ) * LANE_WIDTH

/-- From `Game.h`: `const int COIN_VALUE = 1`. -/
def COIN_VALUE : Int := 1

/-- From `Game.h`: `const int EXTRA_COINS_VALUE = 100`. -/
def EXTRA_COINS_VALUE : Int := 100

/-- From `Game.h`: `const double DOUBLE_SCORE_DURATION = 10.0`. -/
def DOUBLE_SCORE_DURATION : ℚ := 10

/-- From `Game.h`: `const double INCREASE_SPEED_DURATION = 10.0`. -/
def INCREASE_SPEED_DURATION : ℚ := 10

/-- From `Game.h`: `const double INCREASE_SPEED_FACTOR = 1.25`. -/
def INCREASE_SPEED_FACTOR : ℚ := 5 / 4

/-- From `Game.h`: `const double EXTRA_SCORE_DURATION = 2.0`. -/
def EXTRA_SCORE_DURATION : ℚ := 2

/-- From `Game.h`: `const double DIRECTIONS_REVERSED_DURATION = 10.0`. -/
def DIRECTIONS_REVERSED_DURATION : ℚ := 10

/-- One depth-slice of cell contents: one `GameItem` per (row, column). -/
abbrev Slice := Fin LANES_Y_COUNT → Fin LANES_X_COUNT → GameItem

/-- Whether a cell content is a pickup (coin or gem), as opposed to empty or
an obstacle block. -/
def isPickup : GameItem → Bool
  | GameItem.COIN => true
  | GameItem.GEM_DOUBLE_SCORE => true
  | GameItem.GEM_SPEED => true
  | GameItem.GEM_EXTRA_SCORE => true
  | GameItem.GEM_REVERSED_MODE => true
  | GameItem.EMPTY => false
  | GameItem.BLOCK => false

/-- The center interior lane (column index `LANES_X_COUNT / 2`). -/
def CENTER_LANE : Fin LANES_X_COUNT := ⟨LANES_X_COUNT / 2, by decide⟩

/-- Playability check for a slice: some column is free of obstacle blocks
across the full row span, giving a passable lateral path. -/
def slicePassable (s : Slice) : Bool :=
  decide (∃ c : Fin LANES_X_COUNT, ∀ r : Fin LANES_Y_COUNT, s r c ≠ GameItem.BLOCK)

/-- Deterministic generation fallback: force the center lane empty. -/
def forceCenterEmpty (s : Slice) : Slice :=
  fun r c => if c = CENTER_LANE then GameItem.EMPTY else s r c

/-- Modelled from the spec: the slice-construction step of
`GenerateSceneItems`, whose body (`Game.cpp`) is not under `src/`.  The
weighted random draw over {empty, obstacle, coin, gems} is abstracted as the
`sample` argument; if the sampled slice violates the playability constraint,
the deterministic fallback forces the center lane empty.  Generation is a
total function and never fails. -/
def generateSlice (sample : Slice) : Slice :=
  if slicePassable sample then sample else forceCenterEmpty sample

/-- A generated slice widened with the flanking border columns: column 0
renders the left border content, column `LANES_X_COUNT + 1` the right border
content, and the columns in between the interior slice cells. -/
def wideSlice (bl br : GameItem) (s : Slice) (r : Fin LANES_Y_COUNT)
    (c : Fin (LANES_X_COUNT + 2)) : GameItem :=
  if c.val = 0 then bl
  else if c.val = LANES_X_COUNT + 1 then br
  else if h : c.val - 1 < LANES_X_COUNT then s r ⟨c.val - 1, h⟩
  else GameItem.EMPTY

/-- The gameplay-relevant state of `class Game` from `Game.h`: the lane grid
`mGrid` (a `deque<GameItem>` per (row, column), front-to-back along depth),
the run-level border contents `mBorderLeft`/`mBorderRight` held outside the
grid, the game state, scores, the coin value, the game clock, and the timed
effect fields (a start time and an active flag per effect kind).  Times are
modelled as rationals.  Rendering-only members are omitted. -/
structure Game where
  mGrid : Fin LANES_Y_COUNT → Fin LANES_X_COUNT → List GameItem
  mBorderLeft : GameItem
  mBorderRight : GameItem
  mGameState : GameState
  mScore : Int
  mHighScore : Int
  mCoinValue : Int
  mGameTime : ℚ
  mDoubleScoreTime : ℚ
  mIncreaseSpeedTime : ℚ
  mExtraScoreTime : ℚ
  mDirectionsReversedTime : ℚ
  mDoubleScore : Bool
  mIncreaseSpeed : Bool
  mExtraScore : Bool
  mDirectionsReversed : Bool

/-- The four timed effect kinds tracked by the `mDoubleScore*`,
`mIncreaseSpeed*`, `mExtraScore*` and `mDirectionsReversed*` members. -/
inductive EffectKind where
  | doubleScore
  | speed
  | extraScore
  | reversed
  deriving DecidableEq

/-- The fixed duration constant of each effect kind, from `Game.h`. -/
def durationOf : EffectKind → ℚ
  | EffectKind.doubleScore => DOUBLE_SCORE_DURATION
  | EffectKind.speed => INCREASE_SPEED_DURATION
  | EffectKind.extraScore => EXTRA_SCORE_DURATION
  | EffectKind.reversed => DIRECTIONS_REVERSED_DURATION

/-- The active flag stored for an effect kind. -/
def Game.effectFlag (g : Game) : EffectKind → Bool
  | EffectKind.doubleScore => g.mDoubleScore
  | EffectKind.speed => g.mIncreaseSpeed
  | EffectKind.extraScore => g.mExtraScore
  | EffectKind.reversed => g.mDirectionsReversed

/-- The activation start time stored for an effect kind. -/
def Game.effectTime (g : Game) : EffectKind → ℚ
  | EffectKind.doubleScore => g.mDoubleScoreTime
  | EffectKind.speed => g.mIncreaseSpeedTime
  | EffectKind.extraScore => g.mExtraScoreTime
  | EffectKind.reversed => g.mDirectionsReversedTime

/-- Modelled from the spec: `Activate(kind, now)` of the EffectTimers model
(the bodies in `Game.cpp` are not under `src/`): sets the kind's start time
to `now` and its active flag; the duration is the kind's fixed constant. -/
def Activate (k : EffectKind) (now : ℚ) (g : Game) : Game :=
  match k with
  | EffectKind.doubleScore => { g with mDoubleScore := true, mDoubleScoreTime := now }
  | EffectKind.speed => { g with mIncreaseSpeed := true, mIncreaseSpeedTime := now }
  | EffectKind.extraScore => { g with mExtraScore := true, mExtraScoreTime := now }
  | EffectKind.reversed => { g with mDirectionsReversed := true, mDirectionsReversedTime := now }

/-- Modelled from the spec: `IsActive(kind, t)` of the EffectTimers model: a
pure function of the stored start time, the kind's fixed duration and the
caller-supplied time. -/
def IsActive (g : Game) (k : EffectKind) (t : ℚ) : Bool :=
  g.effectFlag k && decide (g.effectTime k ≤ t) && decide (t < g.effectTime k + durationOf k)

/-- Modelled from the spec: the score multiplier consumed by scoring logic —
2 while the double-score effect is active, identity otherwise. -/
def scoreFactor (g : Game) (t : ℚ) : Int :=
  if IsActive g EffectKind.doubleScore t then 2 else 1

/-- Modelled from the spec: the speed multiplier consumed by movement logic —
`INCREASE_SPEED_FACTOR` while the speed effect is active, identity
otherwise. -/
def speedFactor (g : Game) (t : ℚ) : ℚ :=
  if IsActive g EffectKind.speed t then INCREASE_SPEED_FACTOR else 1

/-- Modelled from the spec: `ReadHighScore`, whose body (`Game.cpp`) is not
under `src/`: the persisted source is `some v` when the file holds integer
`v`, `none` when missing or unreadable, which yields 0. -/
def ReadHighScore : Option Int → Int
  | none => 0
  | some v => v

/-- Modelled from the spec: entering LOST after an obstacle collision (the
body of `Collide` in `Game.cpp` is not under `src/`): the state becomes
LOST, and exactly when the run's score exceeds the stored high score, the
high score is updated and `SaveHighScore` is invoked; the second component
records the persisted value, `none` when no write happens. -/
def loseGame (g : Game) : Game × Option Int :=
  if g.mScore > g.mHighScore then
    ({ g with mGameState := GameState.LOST, mHighScore := g.mScore }, some g.mScore)
  else
    ({ g with mGameState := GameState.LOST }, none)

/-- Modelled from the spec: `Collide(item)`, whose body (`Game.cpp`) is not
under `src/`: empty has no effect; an obstacle block enters LOST; a coin
adds the coin value scaled by the active score multiplier; a gem (re)starts
the corresponding effect timer at the current game time, the bonus-score gem
additionally awarding `EXTRA_COINS_VALUE` immediately. -/
def Collide (g : Game) : GameItem → Game
  | GameItem.EMPTY => g
  | GameItem.BLOCK => (loseGame g).1
  | GameItem.COIN =>
      { g with mScore := g.mScore + g.mCoinValue * scoreFactor g g.mGameTime }
  | GameItem.GEM_DOUBLE_SCORE => Activate EffectKind.doubleScore g.mGameTime g
  | GameItem.GEM_SPEED => Activate EffectKind.speed g.mGameTime g
  | GameItem.GEM_EXTRA_SCORE =>
      Activate EffectKind.extraScore g.mGameTime
        { g with mScore := g.mScore + EXTRA_COINS_VALUE }
  | GameItem.GEM_REVERSED_MODE => Activate EffectKind.reversed g.mGameTime g

/-- A continuous character position (x lateral, y vertical, z depth progress
since the last window advance). -/
structure CharPos where
  x : ℚ
  y : ℚ
  z : ℚ

/-- Discretize a continuous coordinate to a lane index by lane pitch:
`⌊q / pitch⌋` when it lands inside the `n` lanes, `none` otherwise. -/
def toLaneIndex (q pitch : ℚ) (n : Nat) : Option (Fin n) :=
  let i : Int := ⌊q / pitch⌋
  if h : 0 ≤ i ∧ i.toNat < n then some ⟨i.toNat, h.2⟩ else none

/-- Modelled from the spec: the position→cell mapping of `DetectCollision`
(`Game.cpp` is not under `src/`): the row comes from y by the lane height
pitch, the column from x (offset to the playable width) by the lane width
pitch, and the depth slot from the progress since the last window advance by
the lane depth pitch; a position outside the grid maps to no cell. -/
def posToCell (pos : CharPos) : Option (Fin LANES_Y_COUNT × Fin LANES_X_COUNT × Fin LANES_Z_COUNT) :=
  match toLaneIndex pos.y LANE_HEIGHT LANES_Y_COUNT,
        toLaneIndex (pos.x + SCENE_WIDTH / 2) LANE_WIDTH LANES_X_COUNT,
        toLaneIndex pos.z LANE_DEPTH LANES_Z_COUNT with
  | some r, some c, some d => some (r, c, d)
  | _, _, _ => none

/-- The grid item at the cell the character position maps to (`EMPTY` when
the position maps to no cell). -/
def collidedItem (g : Game) (pos : CharPos) : GameItem :=
  match posToCell pos with
  | none => GameItem.EMPTY
  | some (r, c, d) => (g.mGrid r c).getD d.val GameItem.EMPTY

/-- Clear one grid cell (depth slot `d` of queue (r, c)) to `EMPTY`. -/
def clearCell (g : Game) (r : Fin LANES_Y_COUNT) (c : Fin LANES_X_COUNT) (d : Nat) : Game :=
  { g with mGrid := fun r2 c2 =>
      if r2 = r ∧ c2 = c then (g.mGrid r c).set d GameItem.EMPTY else g.mGrid r2 c2 }

/-- Modelled from the spec: `DetectCollision(characterPos)` (`Game.cpp` is
not under `src/`): maps the position to at most one cell, reads it, clears
it when it holds a pickup (a coin or gem; an obstacle needs no grid
mutation), applies `Collide` on the item and identifies the applied item in
the second component. -/
def DetectCollision (g : Game) (pos : CharPos) : Game × GameItem :=
  match posToCell pos with
  | none => (g, GameItem.EMPTY)
  | some (r, c, d) =>
      let item := (g.mGrid r c).getD d.val GameItem.EMPTY
      if isPickup item then
        (Collide (clearCell g r c d.val) item, item)
      else
        (Collide g item, item)

/-- Modelled from the spec: `AdvanceWindow` of the LaneGrid model (the slice
rotation inside `Update`/`GenerateSceneItems`, `Game.cpp` not under `src/`):
pops the front entry of every (row, column) queue and pushes the new slice's
entry at the back of every queue, in lockstep. -/
def AdvanceWindow (grid : Fin LANES_Y_COUNT → Fin LANES_X_COUNT → List GameItem)
    (s : Slice) : Fin LANES_Y_COUNT → Fin LANES_X_COUNT → List GameItem :=
  fun r c => (grid r c).tail ++ [s r c]

/-- Modelled from the spec: `ResetGame` (`Game.cpp` is not under `src/`):
clears the grid and regenerates a full window of `LANES_Z_COUNT` slices via
the slice generator, resets the score, the game clock and every effect
timer, keeps the persisted high score and the run-level border contents, and
enters RUNNING. -/
def ResetGame (g : Game) (samples : Nat → Slice) : Game :=
  { mGrid := fun r c => (List.range LANES_Z_COUNT).map fun i => generateSlice (samples i) r c
    mBorderLeft := g.mBorderLeft
    mBorderRight := g.mBorderRight
    mGameState := GameState.RUNNING
    mScore := 0
    mHighScore := g.mHighScore
    mCoinValue := COIN_VALUE
    mGameTime := 0
    mDoubleScoreTime := 0
    mIncreaseSpeedTime := 0
    mExtraScoreTime := 0
    mDirectionsReversedTime := 0
    mDoubleScore := false
    mIncreaseSpeed := false
    mExtraScore := false
    mDirectionsReversed := false }

/-- The per-frame events driving the core: the pause, resume and replay
inputs, a window advance (carrying the slice generator's raw draw), a
collision check at the character position, and a game-clock tick. -/
inductive GameEvent where
  | pauseInput
  | resumeInput
  | replayInput (samples : Nat → Slice)
  | advance (sample : Slice)
  | collide (pos : CharPos)
  | tick (dt : ℚ)

/-- Modelled from the spec: the per-frame dispatch of
`ProcessInput`/`Update` (`Game.cpp` is not under `src/`).  Pause applies
only in RUNNING, resume only in PAUSED, replay only in LOST (via
`ResetGame`); the window advance, collision resolution and game-clock
accumulation run only while RUNNING; every other combination is a no-op. -/
def stepGame (g : Game) : GameEvent → Game
  | GameEvent.pauseInput =>
      if g.mGameState = GameState.RUNNING then { g with mGameState := GameState.PAUSED } else g
  | GameEvent.resumeInput =>
      if g.mGameState = GameState.PAUSED then { g with mGameState := GameState.RUNNING } else g
  | GameEvent.replayInput samples =>
      if g.mGameState = GameState.LOST then ResetGame g samples else g
  | GameEvent.advance sample =>
      if g.mGameState = GameState.RUNNING then
        { g with mGrid := AdvanceWindow g.mGrid (generateSlice sample) }
      else g
  | GameEvent.collide pos =>
      if g.mGameState = GameState.RUNNING then (DetectCollision g pos).1 else g
  | GameEvent.tick dt =>
      if g.mGameState = GameState.RUNNING then { g with mGameTime := g.mGameTime + dt } else g

/-- The states reachable during play: any state just after a `ResetGame`
(how every run starts), closed under the per-frame events. -/
inductive Reachable : Game → Prop
  | reset (g : Game) (samples : Nat → Slice) : Reachable (ResetGame g samples)
  | step (g : Game) (e : GameEvent) : Reachable g → Reachable (stepGame g e)

/-- A concrete pre-reset game record, used to build concrete runs. -/
def initialGame : Game :=
  { mGrid := fun _ _ => List.replicate LANES_Z_COUNT GameItem.EMPTY
    mBorderLeft := GameItem.BLOCK
    mBorderRight := GameItem.BLOCK
    mGameState := GameState.RUNNING
    mScore := 0
    mHighScore := 0
    mCoinValue := COIN_VALUE
    mGameTime := 0
    mDoubleScoreTime := 0
    mIncreaseSpeedTime := 0
    mExtraScoreTime := 0
    mDirectionsReversedTime := 0
    mDoubleScore := false
    mIncreaseSpeed := false
    mExtraScore := false
    mDirectionsReversed := false }


/-- Whether a cell content is a gem (a pickup that activates a timed
effect), as opposed to a coin, an empty cell or an obstacle block. -/
def isGem : GameItem → Bool
  | GameItem.GEM_DOUBLE_SCORE => true
  | GameItem.GEM_SPEED => true
  | GameItem.GEM_EXTRA_SCORE => true
  | GameItem.GEM_REVERSED_MODE => true
  | GameItem.EMPTY => false
  | GameItem.BLOCK => false
  | GameItem.COIN => false

/-- The full playfield view of a game state at a row and depth slot: the
run-level border contents flank the `LANES_X_COUNT` interior grid columns,
uniformly for every row and depth. -/
def wideView (g : Game) (r : Fin LANES_Y_COUNT) (z : Fin LANES_Z_COUNT) :
    Fin (LANES_X_COUNT + 2) → GameItem :=
  wideSlice g.mBorderLeft g.mBorderRight
    (fun r2 c2 => (g.mGrid r2 c2).getD z.val GameItem.EMPTY) r

/-- The gem item that activates each effect kind. -/
def gemOf : EffectKind → GameItem
  | EffectKind.doubleScore => GameItem.GEM_DOUBLE_SCORE
  | EffectKind.speed => GameItem.GEM_SPEED
  | EffectKind.extraScore => GameItem.GEM_EXTRA_SCORE
  | EffectKind.reversed => GameItem.GEM_REVERSED_MODE

/-- The length of every queue after one window advance, given full queues. -/
lemma AdvanceWindow_length (grid : Fin LANES_Y_COUNT → Fin LANES_X_COUNT → List GameItem)
    (s : Slice) (r : Fin LANES_Y_COUNT) (c : Fin LANES_X_COUNT)
    (h : (grid r c).length = LANES_Z_COUNT) :
    (AdvanceWindow grid s r c).length = LANES_Z_COUNT := by
  simp [AdvanceWindow, List.length_tail, h]

/-- `Collide` never mutates the lane grid. -/
lemma Collide_mGrid (g : Game) (item : GameItem) : (Collide g item).mGrid = g.mGrid := by
  cases item <;> first
    | rfl
    | (show (loseGame g).1.mGrid = g.mGrid; unfold loseGame; split <;> rfl)

/-- `Collide` never mutates the coin value. -/
lemma Collide_mCoinValue (g : Game) (item : GameItem) :
    (Collide g item).mCoinValue = g.mCoinValue := by
  cases item <;> first
    | rfl
    | (show (loseGame g).1.mCoinValue = g.mCoinValue; unfold loseGame; split <;> rfl)

/-- `Collide` never decreases the score when the coin value is nonnegative. -/
lemma Collide_mScore_le (g : Game) (item : GameItem) (hcv : 0 ≤ g.mCoinValue) :
    g.mScore ≤ (Collide g item).mScore := by
  cases item <;> simp only [Collide, loseGame, Activate]
  case BLOCK => split <;> simp
  case COIN =>
    have h2 : 0 ≤ scoreFactor g g.mGameTime := by
      unfold scoreFactor; split <;> simp
    show g.mScore ≤ g.mScore + g.mCoinValue * scoreFactor g g.mGameTime
    nlinarith
  case GEM_EXTRA_SCORE =>
    simp [EXTRA_COINS_VALUE]
  all_goals simp

/-- `clearCell` preserves the length of every queue. -/
lemma clearCell_length (g : Game) (r : Fin LANES_Y_COUNT) (c : Fin LANES_X_COUNT)
    (d : Nat) (r2 : Fin LANES_Y_COUNT) (c2 : Fin LANES_X_COUNT) :
    ((clearCell g r c d).mGrid r2 c2).length = (g.mGrid r2 c2).length := by
  simp only [clearCell]
  split
  case isTrue h => rw [List.length_set, h.1, h.2]
  case isFalse => rfl

/-- The state component returned by `DetectCollision` preserves queue
lengths. -/
lemma DetectCollision_length (g : Game) (pos : CharPos)
    (hg : ∀ r c, (g.mGrid r c).length = LANES_Z_COUNT) :
    ∀ r c, (((DetectCollision g pos).1).mGrid r c).length = LANES_Z_COUNT := by
  intro r c
  unfold DetectCollision
  cases hp : posToCell pos with
  | none => exact hg r c
  | some rcd =>
    obtain ⟨r0, c0, d0⟩ := rcd
    simp only
    split
    · rw [Collide_mGrid, clearCell_length]
      exact hg r c
    · rw [Collide_mGrid]
      exact hg r c

/-- Every reachable state has full queues and a nonnegative score with the
coin value fixed at `COIN_VALUE`. -/
lemma Reachable.inv {g : Game} (hr : Reachable g) :
    (∀ r c, (g.mGrid r c).length = LANES_Z_COUNT) ∧ 0 ≤ g.mScore ∧
      g.mCoinValue = COIN_VALUE := by
  induction hr with
  | reset g samples =>
    refine ⟨fun r c => ?_, le_refl 0, rfl⟩
    simp [ResetGame]
  | step g e hg ih =>
    obtain ⟨ihg, ihs, ihc⟩ := ih
    cases e with
    | pauseInput =>
      simp only [stepGame]; split <;> exact ⟨ihg, ihs, ihc⟩
    | resumeInput =>
      simp only [stepGame]; split <;> exact ⟨ihg, ihs, ihc⟩
    | replayInput samples =>
      simp only [stepGame]; split
      · exact ⟨fun r c => by simp [ResetGame], le_refl 0, rfl⟩
      · exact ⟨ihg, ihs, ihc⟩
    | advance sample =>
      simp only [stepGame]; split
      · exact ⟨fun r c => AdvanceWindow_length _ _ r c (ihg r c), ihs, ihc⟩
      · exact ⟨ihg, ihs, ihc⟩
    | collide pos =>
      simp only [stepGame]; split
      · refine ⟨DetectCollision_length g pos ihg, ?_, ?_⟩
        · unfold DetectCollision
          cases hp : posToCell pos with
          | none => exact ihs
          | some rcd =>
            obtain ⟨r0, c0, d0⟩ := rcd
            simp only
            split
            · refine le_trans ihs (Collide_mScore_le _ _ ?_)
              simp [clearCell, ihc, COIN_VALUE]
            · exact le_trans ihs (Collide_mScore_le _ _ (by simp [ihc, COIN_VALUE]))
        · unfold DetectCollision
          cases hp : posToCell pos with
          | none => exact ihc
          | some rcd =>
            obtain ⟨r0, c0, d0⟩ := rcd
            simp only
            split <;> rw [Collide_mCoinValue] <;> simp [clearCell, ihc]
      · exact ⟨ihg, ihs, ihc⟩
    | tick dt =>
      simp only [stepGame]; split <;> exact ⟨ihg, ihs, ihc⟩

/-- Claim C1: every (row, column) queue of `mGrid` holds exactly
`LANES_Z_COUNT` entries in every reachable state (in particular at every
frame while RUNNING), and the window advance pops exactly one entry from
the front and pushes exactly one generated entry at the back of every queue
in lockstep, preserving this length. -/
theorem c1_laneGrid_length_invariant :
    (∀ g : Game, Reachable g → ∀ (r : Fin LANES_Y_COUNT) (c : Fin LANES_X_COUNT),
        (g.mGrid r c).length = LANES_Z_COUNT) ∧
    (∀ (grid : Fin LANES_Y_COUNT → Fin LANES_X_COUNT → List GameItem) (s : Slice)
        (r : Fin LANES_Y_COUNT) (c : Fin LANES_X_COUNT),
        AdvanceWindow grid s r c = (grid r c).tail ++ [s r c]) ∧
    (∀ (grid : Fin LANES_Y_COUNT → Fin LANES_X_COUNT → List GameItem) (s : Slice),
        (∀ r c, (grid r c).length = LANES_Z_COUNT) →
        ∀ r c, (AdvanceWindow grid s r c).length = LANES_Z_COUNT) := by
  refine ⟨fun g hr => (Reachable.inv hr).1, fun grid s r c => rfl,
    fun grid s h r c => AdvanceWindow_length grid s r c (h r c)⟩

/-- Witness for C1 at a concrete reachable state and a concrete grid. -/
theorem c1_laneGrid_length_invariant_witness :
    ((ResetGame initialGame fun _ _ _ => GameItem.EMPTY).mGrid 0 0).length = LANES_Z_COUNT ∧
    (AdvanceWindow (fun _ _ => List.replicate LANES_Z_COUNT GameItem.COIN)
        (fun _ _ => GameItem.EMPTY) 0 0).length = LANES_Z_COUNT :=
  ⟨c1_laneGrid_length_invariant.1 _ (Reachable.reset initialGame _) 0 0,
   c1_laneGrid_length_invariant.2.2 _ _ (fun _ _ => by simp) 0 0⟩

/-- `Activate` never changes the game state. -/
lemma Activate_mGameState (k : EffectKind) (now : ℚ) (g : Game) :
    (Activate k now g).mGameState = g.mGameState := by
  cases k <;> rfl

/-- `Activate` never changes the score. -/
lemma Activate_mScore (k : EffectKind) (now : ℚ) (g : Game) :
    (Activate k now g).mScore = g.mScore := by
  cases k <;> rfl

/-- `Activate` never changes the lane grid. -/
lemma Activate_mGrid (k : EffectKind) (now : ℚ) (g : Game) :
    (Activate k now g).mGrid = g.mGrid := by
  cases k <;> rfl

/-- Entering LOST via `loseGame` always lands in the LOST state. -/
lemma loseGame_mGameState (g : Game) : (loseGame g).1.mGameState = GameState.LOST := by
  unfold loseGame; split <;> rfl

/-- `loseGame` never changes the score. -/
lemma loseGame_mScore (g : Game) : (loseGame g).1.mScore = g.mScore := by
  unfold loseGame; split <;> rfl

/-- `Collide` keeps the game state on every item except the obstacle block. -/
lemma Collide_mGameState_of_ne (g : Game) (item : GameItem) (h : item ≠ GameItem.BLOCK) :
    (Collide g item).mGameState = g.mGameState := by
  cases item <;> first
    | exact absurd rfl h
    | rfl

/-- The game-state outcome of `Collide`: unchanged or LOST. -/
lemma Collide_mGameState (g : Game) (item : GameItem) :
    (Collide g item).mGameState = g.mGameState ∨
      (Collide g item).mGameState = GameState.LOST := by
  cases item <;> first
    | exact Or.inl rfl
    | exact Or.inr (loseGame_mGameState g)

/-- The game-state outcome of `DetectCollision`: unchanged or LOST. -/
lemma DetectCollision_mGameState (g : Game) (pos : CharPos) :
    ((DetectCollision g pos).1).mGameState = g.mGameState ∨
      ((DetectCollision g pos).1).mGameState = GameState.LOST := by
  unfold DetectCollision
  cases hp : posToCell pos with
  | none => exact Or.inl rfl
  | some rcd =>
    obtain ⟨r, c, d⟩ := rcd
    simp only
    split
    · rcases Collide_mGameState (clearCell g r c d.val) ((g.mGrid r c).getD d.val GameItem.EMPTY)
        with h | h
      · exact Or.inl h
      · exact Or.inr h
    · exact Collide_mGameState g _

/-- When the cell the character maps to holds an obstacle block,
`DetectCollision` is exactly the LOST transition. -/
lemma DetectCollision_block (g : Game) (pos : CharPos)
    (h : collidedItem g pos = GameItem.BLOCK) :
    (DetectCollision g pos).1 = (loseGame g).1 := by
  unfold collidedItem at h
  unfold DetectCollision
  cases hp : posToCell pos with
  | none => rw [hp] at h; cases h
  | some rcd =>
    obtain ⟨r, c, d⟩ := rcd
    rw [hp] at h
    simp only at h ⊢
    rw [h]
    simp [isPickup, Collide]

/-- The score outcome of `DetectCollision` is never a decrease when the coin
value is nonnegative. -/
lemma DetectCollision_mScore_le (g : Game) (pos : CharPos) (hcv : 0 ≤ g.mCoinValue) :
    g.mScore ≤ ((DetectCollision g pos).1).mScore := by
  unfold DetectCollision
  cases hp : posToCell pos with
  | none => exact le_refl _
  | some rcd =>
    obtain ⟨r, c, d⟩ := rcd
    simp only
    split
    · exact Collide_mScore_le _ _ hcv
    · exact Collide_mScore_le _ _ hcv

/-- Claim C5: the only legal transitions are RUNNING→PAUSED on pause input,
PAUSED→RUNNING on resume input, RUNNING→LOST on obstacle collision, and
LOST→RUNNING on replay input via `ResetGame`; an input requesting an illegal
transition for the current state leaves the whole state unchanged. -/
theorem c5_legal_transitions :
    (∀ g : Game, g.mGameState = GameState.RUNNING →
        stepGame g GameEvent.pauseInput = { g with mGameState := GameState.PAUSED }) ∧
    (∀ g : Game, g.mGameState ≠ GameState.RUNNING →
        stepGame g GameEvent.pauseInput = g) ∧
    (∀ g : Game, g.mGameState = GameState.PAUSED →
        stepGame g GameEvent.resumeInput = { g with mGameState := GameState.RUNNING }) ∧
    (∀ g : Game, g.mGameState ≠ GameState.PAUSED →
        stepGame g GameEvent.resumeInput = g) ∧
    (∀ (g : Game) (s : Nat → Slice), g.mGameState = GameState.LOST →
        stepGame g (GameEvent.replayInput s) = ResetGame g s ∧
        (ResetGame g s).mGameState = GameState.RUNNING) ∧
    (∀ (g : Game) (s : Nat → Slice), g.mGameState ≠ GameState.LOST →
        stepGame g (GameEvent.replayInput s) = g) ∧
    (∀ (g : Game) (pos : CharPos), g.mGameState = GameState.RUNNING →
        collidedItem g pos = GameItem.BLOCK →
        (stepGame g (GameEvent.collide pos)).mGameState = GameState.LOST) ∧
    (∀ (g : Game) (e : GameEvent), (stepGame g e).mGameState ≠ g.mGameState →
        (g.mGameState = GameState.RUNNING ∧
          (stepGame g e).mGameState = GameState.PAUSED) ∨
        (g.mGameState = GameState.PAUSED ∧
          (stepGame g e).mGameState = GameState.RUNNING) ∨
        (g.mGameState = GameState.RUNNING ∧
          (stepGame g e).mGameState = GameState.LOST) ∨
        (g.mGameState = GameState.LOST ∧
          (stepGame g e).mGameState = GameState.RUNNING)) := by
  refine ⟨?_, ?_, ?_, ?_, ?_, ?_, ?_, ?_⟩
  · intro g h; simp [stepGame, h]
  · intro g h; simp [stepGame, h]
  · intro g h; simp [stepGame, h]
  · intro g h; simp [stepGame, h]
  · intro g s h; exact ⟨by simp [stepGame, h], rfl⟩
  · intro g s h; simp [stepGame, h]
  · intro g pos hR hB
    simp only [stepGame, hR, if_pos]
    rw [DetectCollision_block g pos hB, loseGame_mGameState]
  · intro g e hne
    cases e with
    | pauseInput =>
      simp only [stepGame] at hne ⊢
      by_cases h : g.mGameState = GameState.RUNNING
      · rw [if_pos h] at hne ⊢; exact Or.inl ⟨h, rfl⟩
      · rw [if_neg h] at hne; exact absurd rfl hne
    | resumeInput =>
      simp only [stepGame] at hne ⊢
      by_cases h : g.mGameState = GameState.PAUSED
      · rw [if_pos h] at hne ⊢; exact Or.inr (Or.inl ⟨h, rfl⟩)
      · rw [if_neg h] at hne; exact absurd rfl hne
    | replayInput s =>
      simp only [stepGame] at hne ⊢
      by_cases h : g.mGameState = GameState.LOST
      · rw [if_pos h] at hne ⊢; exact Or.inr (Or.inr (Or.inr ⟨h, rfl⟩))
      · rw [if_neg h] at hne; exact absurd rfl hne
    | advance s =>
      simp only [stepGame] at hne
      by_cases h : g.mGameState = GameState.RUNNING
      · rw [if_pos h] at hne; exact absurd rfl hne
      · rw [if_neg h] at hne; exact absurd rfl hne
    | collide pos =>
      simp only [stepGame] at hne ⊢
      by_cases h : g.mGameState = GameState.RUNNING
      · rw [if_pos h] at hne ⊢
        rcases DetectCollision_mGameState g pos with hs | hs
        · exact absurd hs hne
        · exact Or.inr (Or.inr (Or.inl ⟨h, hs⟩))
      · rw [if_neg h] at hne; exact absurd rfl hne
    | tick dt =>
      simp only [stepGame] at hne
      by_cases h : g.mGameState = GameState.RUNNING
      · rw [if_pos h] at hne; exact absurd rfl hne
      · rw [if_neg h] at hne; exact absurd rfl hne

/-- Witness for C5: pause applies in a concrete RUNNING state and is a no-op
in a concrete LOST state. -/
theorem c5_legal_transitions_witness :
    stepGame (ResetGame initialGame fun _ _ _ => GameItem.EMPTY) GameEvent.pauseInput
      = { (ResetGame initialGame fun _ _ _ => GameItem.EMPTY) with
            mGameState := GameState.PAUSED } ∧
    stepGame { initialGame with mGameState := GameState.LOST } GameEvent.pauseInput
      = { initialGame with mGameState := GameState.LOST } :=
  ⟨c5_legal_transitions.1 _ rfl, c5_legal_transitions.2.1 _ (by decide)⟩

/-- Claim C6: across frames while RUNNING the score is monotonically
non-decreasing and non-negative on every reachable state, `ResetGame` sets
it to exactly 0, and no other operation lowers it (in particular none other
resets it to 0 from a positive value). -/
theorem c6_score_monotone :
    (∀ g : Game, Reachable g → 0 ≤ g.mScore) ∧
    (∀ (g : Game) (e : GameEvent), Reachable g →
        g.mGameState = GameState.RUNNING → g.mScore ≤ (stepGame g e).mScore) ∧
    (∀ (g : Game) (samples : Nat → Slice), (ResetGame g samples).mScore = 0) ∧
    (∀ (g : Game) (e : GameEvent), Reachable g → (stepGame g e).mScore < g.mScore →
        ∃ samples, e = GameEvent.replayInput samples ∧
          stepGame g e = ResetGame g samples ∧ (stepGame g e).mScore = 0) := by
  have hstep : ∀ (g : Game) (e : GameEvent), g.mCoinValue = COIN_VALUE →
      g.mScore ≤ (stepGame g e).mScore ∨
        (∃ samples, e = GameEvent.replayInput samples ∧
          g.mGameState = GameState.LOST ∧ stepGame g e = ResetGame g samples) := by
    intro g e hcv
    cases e with
    | pauseInput => left; simp only [stepGame]; split <;> exact le_refl _
    | resumeInput => left; simp only [stepGame]; split <;> exact le_refl _
    | replayInput samples =>
      by_cases h : g.mGameState = GameState.LOST
      · exact Or.inr ⟨samples, rfl, h, by simp [stepGame, h]⟩
      · left; simp [stepGame, h]
    | advance sample => left; simp only [stepGame]; split <;> exact le_refl _
    | collide pos =>
      left; simp only [stepGame]; split
      · exact DetectCollision_mScore_le g pos (by rw [hcv]; decide)
      · exact le_refl _
    | tick dt => left; simp only [stepGame]; split <;> exact le_refl _
  refine ⟨fun g hr => (Reachable.inv hr).2.1, ?_, fun g samples => rfl, ?_⟩
  · intro g e hr hR
    rcases hstep g e (Reachable.inv hr).2.2 with h | ⟨samples, _, hL, _⟩
    · exact h
    · rw [hR] at hL; cases hL
  · intro g e hr hlt
    rcases hstep g e (Reachable.inv hr).2.2 with h | ⟨samples, he, _, heq⟩
    · exact absurd hlt (not_lt_of_le h)
    · exact ⟨samples, he, heq, by rw [heq]; rfl⟩

/-- Witness for C6 at a concrete reachable state: the score is non-negative
after a reset and does not decrease across a concrete RUNNING frame. -/
theorem c6_score_monotone_witness :
    0 ≤ (ResetGame initialGame fun _ _ _ => GameItem.EMPTY).mScore ∧
    (ResetGame initialGame fun _ _ _ => GameItem.EMPTY).mScore
      ≤ (stepGame (ResetGame initialGame fun _ _ _ => GameItem.EMPTY)
          (GameEvent.tick 1)).mScore :=
  ⟨c6_score_monotone.1 _ (Reachable.reset initialGame _),
   c6_score_monotone.2.1 _ _ (Reachable.reset initialGame _) rfl⟩

/-- Claim C7: from a RUNNING state, pausing then resuming restores the game
exactly — the score, every lane-grid cell and every effect window are
unchanged — and while PAUSED every event other than resume (in particular a
game-clock tick) is a no-op, so `mGameTime` accumulates no elapsed time
while PAUSED.  Times are measured on the game clock, which is exactly the
wall clock shifted by the total paused duration. -/
theorem c7_pause_resume_roundtrip (g : Game) (hR : g.mGameState = GameState.RUNNING) :
    (∀ e : GameEvent, e ≠ GameEvent.resumeInput →
        stepGame (stepGame g GameEvent.pauseInput) e = stepGame g GameEvent.pauseInput) ∧
    stepGame (stepGame g GameEvent.pauseInput) GameEvent.resumeInput = g ∧
    (∀ dt : ℚ, (stepGame (stepGame g GameEvent.pauseInput) (GameEvent.tick dt)).mGameTime
        = g.mGameTime) ∧
    (stepGame g GameEvent.pauseInput).mScore = g.mScore ∧
    (stepGame g GameEvent.pauseInput).mGrid = g.mGrid := by
  have hgp : stepGame g GameEvent.pauseInput = { g with mGameState := GameState.PAUSED } := by
    simp [stepGame, hR]
  have hnoop : ∀ e : GameEvent, e ≠ GameEvent.resumeInput →
      stepGame (stepGame g GameEvent.pauseInput) e = stepGame g GameEvent.pauseInput := by
    intro e he
    rw [hgp]
    cases e with
    | pauseInput => simp [stepGame]
    | resumeInput => exact absurd rfl he
    | replayInput s => simp [stepGame]
    | advance s => simp [stepGame]
    | collide pos => simp [stepGame]
    | tick dt => simp [stepGame]
  refine ⟨hnoop, ?_, ?_, ?_, ?_⟩
  · rw [hgp]
    simp only [stepGame, reduceCtorEq, if_pos]
    rw [← hR]
  · intro dt
    rw [hnoop (GameEvent.tick dt) (by intro h; cases h), hgp]
  · rw [hgp]
  · rw [hgp]

/-- Witness for C7 at a concrete RUNNING state. -/
theorem c7_pause_resume_roundtrip_witness :
    stepGame (stepGame (ResetGame initialGame fun _ _ _ => GameItem.EMPTY)
        GameEvent.pauseInput) GameEvent.resumeInput
      = ResetGame initialGame fun _ _ _ => GameItem.EMPTY :=
  (c7_pause_resume_roundtrip _ rfl).2.1

/-- Claim C4: an effect is reported active iff `start ≤ t < start+duration`
for the stored activation time and the kind's fixed duration; re-activating
at a later time restarts the window from that time instead of stacking, so
the effect is still active just before the new start plus the duration. -/
theorem c4_effect_active_window :
    (∀ (g : Game) (k : EffectKind) (now t : ℚ),
        IsActive (Activate k now g) k t = true ↔ now ≤ t ∧ t < now + durationOf k) ∧
    (∀ (g : Game) (k : EffectKind) (t1 t2 : ℚ),
        Activate k t2 (Activate k t1 g) = Activate k t2 g) ∧
    (∀ (g : Game) (k : EffectKind) (t2 ε : ℚ), 0 < ε → ε ≤ durationOf k →
        IsActive (Activate k t2 g) k (t2 + durationOf k - ε) = true) := by
  have hwin : ∀ (g : Game) (k : EffectKind) (now t : ℚ),
      IsActive (Activate k now g) k t = true ↔ now ≤ t ∧ t < now + durationOf k := by
    intro g k now t
    cases k <;>
      simp [IsActive, Activate, Game.effectFlag, Game.effectTime]
  refine ⟨hwin, ?_, ?_⟩
  · intro g k t1 t2
    cases k <;> rfl
  · intro g k t2 ε h1 h2
    rw [hwin]
    constructor <;> linarith

/-- Witness for C4: a concrete re-activation window. -/
theorem c4_effect_active_window_witness :
    (0 : ℚ) < 1 ∧ (1 : ℚ) ≤ durationOf EffectKind.doubleScore ∧
    IsActive (Activate EffectKind.doubleScore 5 initialGame) EffectKind.doubleScore
      (5 + durationOf EffectKind.doubleScore - 1) = true :=
  ⟨by norm_num, by norm_num [durationOf, DOUBLE_SCORE_DURATION],
   c4_effect_active_window.2.2 initialGame EffectKind.doubleScore 5 1 (by norm_num)
     (by norm_num [durationOf, DOUBLE_SCORE_DURATION])⟩

/-- Claim C9: activation stores the activation time and the kind's fixed
duration constant applies — 10 seconds for the score, speed and
reversed-controls effects, 2 seconds for the bonus-score display — and the
factors are 2 for score and 5/4 = 1.25 for speed, identity when inactive. -/
theorem c9_effect_constants :
    DOUBLE_SCORE_DURATION = 10 ∧ INCREASE_SPEED_DURATION = 10 ∧
    DIRECTIONS_REVERSED_DURATION = 10 ∧ EXTRA_SCORE_DURATION = 2 ∧
    durationOf EffectKind.doubleScore = 10 ∧ durationOf EffectKind.speed = 10 ∧
    durationOf EffectKind.reversed = 10 ∧ durationOf EffectKind.extraScore = 2 ∧
    (∀ (g : Game) (k : EffectKind) (now : ℚ),
        (Activate k now g).effectTime k = now ∧ (Activate k now g).effectFlag k = true) ∧
    (∀ (g : Game) (t : ℚ),
        IsActive g EffectKind.doubleScore t = true → scoreFactor g t = 2) ∧
    (∀ (g : Game) (t : ℚ),
        IsActive g EffectKind.doubleScore t = false → scoreFactor g t = 1) ∧
    (∀ (g : Game) (t : ℚ), IsActive g EffectKind.speed t = true →
        speedFactor g t = INCREASE_SPEED_FACTOR) ∧
    (∀ (g : Game) (t : ℚ), IsActive g EffectKind.speed t = false → speedFactor g t = 1) ∧
    INCREASE_SPEED_FACTOR = 5 / 4 := by
  refine ⟨rfl, rfl, rfl, rfl, rfl, rfl, rfl, rfl, ?_, ?_, ?_, ?_, ?_, rfl⟩
  · intro g k now; cases k <;> exact ⟨rfl, rfl⟩
  · intro g t h; unfold scoreFactor; rw [h]; rfl
  · intro g t h; unfold scoreFactor; rw [h]; rfl
  · intro g t h; unfold speedFactor; rw [h]; rfl
  · intro g t h; unfold speedFactor; rw [h]; rfl

/-- Witness for C9: factors at a concrete inactive state. -/
theorem c9_effect_constants_witness :
    IsActive initialGame EffectKind.doubleScore 0 = false ∧
    scoreFactor initialGame 0 = 1 ∧
    IsActive initialGame EffectKind.speed 0 = false ∧
    speedFactor initialGame 0 = 1 :=
  ⟨rfl, c9_effect_constants.2.2.2.2.2.2.2.2.2.2.1 initialGame 0 rfl, rfl,
   c9_effect_constants.2.2.2.2.2.2.2.2.2.2.2.2.1 initialGame 0 rfl⟩

/-- Claim C8: a missing or unreadable high-score source reads as 0, and on
entering LOST the high score is persisted exactly when the run's score
exceeds the stored high score, in which case the stored high score becomes
the run's score; both operations are total, so no failure escapes. -/
theorem c8_highscore_persistence :
    ReadHighScore none = 0 ∧
    (∀ v : Int, ReadHighScore (some v) = v) ∧
    (∀ g : Game, Collide g GameItem.BLOCK = (loseGame g).1) ∧
    (∀ g : Game, (loseGame g).1.mGameState = GameState.LOST) ∧
    (∀ g : Game, ((loseGame g).2 ≠ none ↔ g.mScore > g.mHighScore)) ∧
    (∀ g : Game, g.mScore > g.mHighScore →
        (loseGame g).2 = some g.mScore ∧ (loseGame g).1.mHighScore = g.mScore) ∧
    (∀ g : Game, ¬ g.mScore > g.mHighScore →
        (loseGame g).2 = none ∧ (loseGame g).1.mHighScore = g.mHighScore) := by
  refine ⟨rfl, fun v => rfl, fun g => rfl, loseGame_mGameState, ?_, ?_, ?_⟩
  · intro g
    unfold loseGame
    split
    case isTrue h => simpa using h
    case isFalse h => simpa using h
  · intro g h
    unfold loseGame
    rw [if_pos h]
    exact ⟨rfl, rfl⟩
  · intro g h
    unfold loseGame
    rw [if_neg h]
    exact ⟨rfl, rfl⟩

/-- Witness for C8: a concrete run whose score 5 beats the stored high
score 3 persists 5. -/
theorem c8_highscore_persistence_witness :
    (5 : Int) > 3 ∧
    (loseGame { initialGame with mScore := 5, mHighScore := 3 }).2 = some 5 :=
  ⟨by norm_num,
   (c8_highscore_persistence.2.2.2.2.2.1
     { initialGame with mScore := 5, mHighScore := 3 } (by norm_num)).1⟩

/-- Claim C3: slice generation is total and always yields a valid slice: the
result is passable (some lateral lane is free of obstacles across the full
row span), no cell holds a pickup coincident with an obstacle (each cell is
a single item), when direct sampling violates the constraint the
deterministic fallback forces the center lane empty, and the flanking border
columns of the widened slice hold only the border contents. -/
theorem c3_generation_always_valid :
    (∀ sample : Slice, slicePassable (generateSlice sample) = true) ∧
    (∀ (sample : Slice) (r : Fin LANES_Y_COUNT) (c : Fin LANES_X_COUNT),
        (isPickup (generateSlice sample r c)
          && (generateSlice sample r c == GameItem.BLOCK)) = false) ∧
    (∀ sample : Slice, generateSlice sample =
        if slicePassable sample then sample else forceCenterEmpty sample) ∧
    (∀ (sample : Slice) (bl br : GameItem) (r : Fin LANES_Y_COUNT),
        wideSlice bl br (generateSlice sample) r 0 = bl ∧
        wideSlice bl br (generateSlice sample) r 4 = br) := by
  refine ⟨?_, ?_, fun sample => rfl, ?_⟩
  · intro sample
    unfold generateSlice
    split
    case isTrue h => exact h
    case isFalse h =>
      simp only [slicePassable, decide_eq_true_eq]
      exact ⟨CENTER_LANE, fun r => by simp [forceCenterEmpty]⟩
  · intro sample r c
    cases hg : generateSlice sample r c <;> rfl
  · intro sample bl br r
    exact ⟨rfl, rfl⟩

/-- Claim C10: the border contents are single run-level values held outside
the lane grid, rendered uniformly across every row and depth slot; the
mutable playable grid has exactly the `LANES_X_COUNT = 3` interior columns,
and no event ever changes what the border columns hold. -/
theorem c10_borders_outside_grid :
    LANES_X_COUNT = 3 ∧
    (∀ (g : Game) (e : GameEvent),
        (stepGame g e).mBorderLeft = g.mBorderLeft ∧
        (stepGame g e).mBorderRight = g.mBorderRight) ∧
    (∀ (g : Game) (r : Fin LANES_Y_COUNT) (z : Fin LANES_Z_COUNT),
        wideView g r z 0 = g.mBorderLeft ∧ wideView g r z 4 = g.mBorderRight) ∧
    (∀ (g : Game) (e : GameEvent) (r : Fin LANES_Y_COUNT) (z : Fin LANES_Z_COUNT),
        wideView (stepGame g e) r z 0 = g.mBorderLeft ∧
        wideView (stepGame g e) r z 4 = g.mBorderRight) := by
  have hLose : ∀ g : Game, (loseGame g).1.mBorderLeft = g.mBorderLeft ∧
      (loseGame g).1.mBorderRight = g.mBorderRight := by
    intro g; unfold loseGame; split <;> exact ⟨rfl, rfl⟩
  have hCollide : ∀ (g : Game) (item : GameItem),
      (Collide g item).mBorderLeft = g.mBorderLeft ∧
      (Collide g item).mBorderRight = g.mBorderRight := by
    intro g item
    cases item <;> first
      | exact ⟨rfl, rfl⟩
      | exact hLose g
  have hDetect : ∀ (g : Game) (pos : CharPos),
      ((DetectCollision g pos).1).mBorderLeft = g.mBorderLeft ∧
      ((DetectCollision g pos).1).mBorderRight = g.mBorderRight := by
    intro g pos
    unfold DetectCollision
    cases hp : posToCell pos with
    | none => exact ⟨rfl, rfl⟩
    | some rcd =>
      obtain ⟨r, c, d⟩ := rcd
      simp only
      split
      · exact hCollide _ _
      · exact hCollide _ _
  have hstep : ∀ (g : Game) (e : GameEvent),
      (stepGame g e).mBorderLeft = g.mBorderLeft ∧
      (stepGame g e).mBorderRight = g.mBorderRight := by
    intro g e
    cases e with
    | pauseInput => simp only [stepGame]; split <;> exact ⟨rfl, rfl⟩
    | resumeInput => simp only [stepGame]; split <;> exact ⟨rfl, rfl⟩
    | replayInput s => simp only [stepGame]; split <;> exact ⟨rfl, rfl⟩
    | advance s => simp only [stepGame]; split <;> exact ⟨rfl, rfl⟩
    | collide pos =>
      simp only [stepGame]; split
      · exact hDetect g pos
      · exact ⟨rfl, rfl⟩
    | tick dt => simp only [stepGame]; split <;> exact ⟨rfl, rfl⟩
  refine ⟨rfl, hstep, fun g r z => ⟨rfl, rfl⟩, ?_⟩
  · intro g e r z
    have h := hstep g e
    unfold wideView
    rw [h.1, h.2]
    exact ⟨rfl, rfl⟩

/-- Setting one position of a list leaves every other position unchanged. -/
lemma getD_set_of_ne (l : List GameItem) (i j : Nat) (v x : GameItem) (h : i ≠ j) :
    (l.set i v).getD j x = l.getD j x := by
  simp [List.getD_eq_getElem?_getD, List.getElem?_set_ne h]

/-- `loseGame` never mutates the lane grid. -/
lemma loseGame_mGrid (g : Game) : (loseGame g).1.mGrid = g.mGrid := by
  unfold loseGame; split <;> rfl

/-- Claim C2: while RUNNING, a single `DetectCollision` call identifies and
returns the item at the (at most one) cell the character position maps to,
yields exactly one of the four outcomes — no effect, obstacle→LOST,
coin→score plus coin value times the active score multiplier, gem→the
corresponding effect timer (re)activated — and mutates at most one grid
cell. -/
theorem c2_single_collision_outcome (g : Game) (pos : CharPos)
    (hR : g.mGameState = GameState.RUNNING) :
    ((DetectCollision g pos).2 = collidedItem g pos) ∧
    ((DetectCollision g pos).2 = GameItem.EMPTY ∨
      (DetectCollision g pos).2 = GameItem.BLOCK ∨
      (DetectCollision g pos).2 = GameItem.COIN ∨
      isGem (DetectCollision g pos).2 = true) ∧
    (collidedItem g pos = GameItem.EMPTY → (DetectCollision g pos).1 = g) ∧
    (collidedItem g pos = GameItem.BLOCK →
      ((DetectCollision g pos).1).mGameState = GameState.LOST ∧
      ((DetectCollision g pos).1).mScore = g.mScore ∧
      ((DetectCollision g pos).1).mGrid = g.mGrid) ∧
    (collidedItem g pos = GameItem.COIN →
      ((DetectCollision g pos).1).mScore
        = g.mScore + g.mCoinValue * scoreFactor g g.mGameTime ∧
      ((DetectCollision g pos).1).mGameState = GameState.RUNNING) ∧
    (∀ k : EffectKind, collidedItem g pos = gemOf k →
      IsActive ((DetectCollision g pos).1) k g.mGameTime = true ∧
      ((DetectCollision g pos).1).mGameState = GameState.RUNNING) ∧
    (∃ (r0 : Fin LANES_Y_COUNT) (c0 : Fin LANES_X_COUNT) (d0 : Nat),
      ∀ (r : Fin LANES_Y_COUNT) (c : Fin LANES_X_COUNT) (i : Nat),
        ¬(r = r0 ∧ c = c0 ∧ i = d0) →
        (((DetectCollision g pos).1).mGrid r c).getD i GameItem.EMPTY
          = (g.mGrid r c).getD i GameItem.EMPTY) := by
  refine ⟨?_, ?_, ?_, ?_, ?_, ?_, ?_⟩
  · unfold DetectCollision collidedItem
    cases posToCell pos with
    | none => rfl
    | some rcd =>
      obtain ⟨r, c, d⟩ := rcd
      simp only
      split <;> rfl
  · cases hx : (DetectCollision g pos).2 with
    | EMPTY => exact Or.inl rfl
    | BLOCK => exact Or.inr (Or.inl rfl)
    | COIN => exact Or.inr (Or.inr (Or.inl rfl))
    | GEM_DOUBLE_SCORE => exact Or.inr (Or.inr (Or.inr rfl))
    | GEM_SPEED => exact Or.inr (Or.inr (Or.inr rfl))
    | GEM_EXTRA_SCORE => exact Or.inr (Or.inr (Or.inr rfl))
    | GEM_REVERSED_MODE => exact Or.inr (Or.inr (Or.inr rfl))
  · intro h
    unfold collidedItem at h
    unfold DetectCollision
    cases hp : posToCell pos with
    | none => rfl
    | some rcd =>
      obtain ⟨r, c, d⟩ := rcd
      rw [hp] at h
      simp only at h ⊢
      rw [h]
      rfl
  · intro h
    rw [DetectCollision_block g pos h]
    exact ⟨loseGame_mGameState g, loseGame_mScore g, loseGame_mGrid g⟩
  · intro h
    unfold collidedItem at h
    unfold DetectCollision
    cases hp : posToCell pos with
    | none => rw [hp] at h; cases h
    | some rcd =>
      obtain ⟨r, c, d⟩ := rcd
      rw [hp] at h
      simp only at h ⊢
      rw [h]
      exact ⟨rfl, hR⟩
  · intro k h
    unfold collidedItem at h
    unfold DetectCollision
    cases hp : posToCell pos with
    | none => rw [hp] at h; cases k <;> cases h
    | some rcd =>
      obtain ⟨r, c, d⟩ := rcd
      rw [hp] at h
      simp only at h ⊢
      cases k with
      | doubleScore =>
        rw [h]
        exact ⟨by norm_num [IsActive, Collide, Activate, gemOf, isPickup, Game.effectFlag,
          Game.effectTime, durationOf, DOUBLE_SCORE_DURATION, clearCell], hR⟩
      | speed =>
        rw [h]
        exact ⟨by norm_num [IsActive, Collide, Activate, gemOf, isPickup, Game.effectFlag,
          Game.effectTime, durationOf, INCREASE_SPEED_DURATION, clearCell], hR⟩
      | extraScore =>
        rw [h]
        exact ⟨by norm_num [IsActive, Collide, Activate, gemOf, isPickup, Game.effectFlag,
          Game.effectTime, durationOf, EXTRA_SCORE_DURATION, clearCell], hR⟩
      | reversed =>
        rw [h]
        exact ⟨by norm_num [IsActive, Collide, Activate, gemOf, isPickup, Game.effectFlag,
          Game.effectTime, durationOf, DIRECTIONS_REVERSED_DURATION, clearCell], hR⟩
  · unfold DetectCollision
    cases hp : posToCell pos with
    | none => exact ⟨0, 0, 0, fun r c i _ => rfl⟩
    | some rcd =>
      obtain ⟨r0, c0, d0⟩ := rcd
      simp only
      refine ⟨r0, c0, d0.val, ?_⟩
      intro r c i hne
      split
      · rw [Collide_mGrid]
        simp only [clearCell]
        split
        case isTrue heq =>
          have hi : i ≠ d0.val := fun hid => hne ⟨heq.1, heq.2, hid⟩
          rw [getD_set_of_ne _ _ _ _ _ (Ne.symm hi), heq.1, heq.2]
        case isFalse => rfl
      · rw [Collide_mGrid]

/-- Witness for C2 at a concrete RUNNING state and position. -/
theorem c2_single_collision_outcome_witness :
    (ResetGame initialGame fun _ _ _ => GameItem.EMPTY).mGameState = GameState.RUNNING ∧
    (DetectCollision (ResetGame initialGame fun _ _ _ => GameItem.EMPTY)
        { x := 0, y := 0, z := 0 }).2
      = collidedItem (ResetGame initialGame fun _ _ _ => GameItem.EMPTY)
        { x := 0, y := 0, z := 0 } :=
  ⟨rfl, (c2_single_collision_outcome _ { x := 0, y := 0, z := 0 } rfl).1⟩
